import Mathlib

set_option autoImplicit false

namespace VoiceBot

/-!
Shallow embedding of the voice-time ledger and the connection supervisor of
`src/bot.js` (a presence-maintaining Discord voice bot).

Tables are modelled as association lists of rows, mirroring the two SQLite
tables: `sessions (user_id PRIMARY KEY, started_at)` and
`user_hours (user_id PRIMARY KEY, total_ms)`.  Timestamps and durations are
JavaScript millisecond numbers (`Date.now()` values), modelled as `Int`.
-/

/-- One table keyed by `user_id` with a single integer payload column. -/
abbrev Table := List (String × Int)

/-- `INSERT INTO sessions (user_id, started_at) VALUES (...) ON
CONFLICT(user_id) DO UPDATE SET started_at = excluded.started_at`
(`startSessionStmt`): replace the payload of the row with the given key, or
append a fresh row when the key is absent. -/
def upsertSet : Table → String → Int → Table
  | [], u, w => [(u, w)]
  | r :: rs, u, w => if r.1 = u then (u, w) :: rs else r :: upsertSet rs u w

/-- `INSERT INTO user_hours (user_id, total_ms) VALUES (...) ON
CONFLICT(user_id) DO UPDATE SET total_ms = total_ms + excluded.total_ms`
(`addTimeStmt`): add to the payload of the row with the given key, or insert
the delta as a fresh row when the key is absent. -/
def upsertAdd : Table → String → Int → Table
  | [], u, d => [(u, d)]
  | r :: rs, u, d => if r.1 = u then (r.1, r.2 + d) :: rs else r :: upsertAdd rs u d

/-- `DELETE FROM sessions WHERE user_id = ?` (`endSessionStmt`). -/
def deleteRow : Table → String → Table
  | [], _ => []
  | r :: rs, u => if r.1 = u then deleteRow rs u else r :: deleteRow rs u

/-- `SELECT started_at FROM sessions WHERE user_id = ?` (`getSessionStmt`);
the same lookup shape serves for `user_hours`. -/
def getRow : Table → String → Option Int
  | [], _ => none
  | r :: rs, u => if r.1 = u then some r.2 else getRow rs u

/-- The key column of a table. -/
def keys (t : Table) : List String := t.map Prod.fst

/-- Number of rows of `t` whose key is `u`. -/
def countKey (t : Table) (u : String) : Nat :=
  (t.filter (fun r => r.1 == u)).length

/-- A table satisfies its PRIMARY KEY constraint: no two rows share a key. -/
abbrev nodupKeys (t : Table) : Prop := (keys t).Nodup

/-- The durable state of the bot's SQLite database. -/
structure Ledger where
  sessions : Table
  hours : Table
  deriving DecidableEq, Repr

/-- The freshly created database: both tables empty. -/
def Ledger.empty : Ledger := ⟨[], []⟩

/-- `startSession(userId, when)`: upsert an active session row. -/
def startSession (L : Ledger) (userId : String) (whenMs : Int) : Ledger :=
  { L with sessions := upsertSet L.sessions userId whenMs }

/-- `endSession(userId, when)`: if no session row exists return 0 and leave
the database untouched; otherwise compute `delta = max(0, when - started_at)`,
delete the session row, add `delta` to `user_hours`, and return `delta`. -/
def endSession (L : Ledger) (userId : String) (whenMs : Int) : Ledger × Int :=
  match getRow L.sessions userId with
  | none => (L, 0)
  | some startedAt =>
    let delta := max 0 (whenMs - startedAt)
    ({ sessions := deleteRow L.sessions userId,
       hours := upsertAdd L.hours userId delta }, delta)

/-- A participant's accumulated `total_ms`, reading a missing row as 0. -/
def totalOf (L : Ledger) (u : String) : Int := (getRow L.hours u).getD 0

/-- One ledger call for a fixed participant: a `startSession` (begin) or an
`endSession` (finish) at a given timestamp. -/
inductive LedgerEvent where
  | begin (t : Int)
  | finish (t : Int)
  deriving DecidableEq, Repr

/-- Run a sequence of begin/end calls for participant `u`. -/
def runEvents (u : String) : Ledger → List LedgerEvent → Ledger
  | L, [] => L
  | L, .begin t :: es => runEvents u (startSession L u t) es
  | L, .finish t :: es => runEvents u (endSession L u t).1 es

/-- Modelled from the spec: the sum, over each completed session, of
`max(0, end_time - start_time)`.  `pending` is the start time of the session
in progress, if any; a finish with no pending begin contributes nothing. -/
def specTotal : Option Int → List LedgerEvent → Int
  | _, [] => 0
  | _, .begin t :: es => specTotal (some t) es
  | pending, .finish t :: es =>
      (match pending with
       | none => 0
       | some s => max 0 (t - s)) + specTotal none es

/-- The `VoiceStateUpdate` handler, non-bot branch: dispatch on the old and
new channel of the participant exactly as the `wasIn`/`nowIn` tests do. -/
def handleVoice (L : Ledger) (u : String) (oldCh newCh : Option String)
    (nowMs : Int) : Ledger :=
  let wasIn := oldCh.isSome
  let nowIn := newCh.isSome
  if !wasIn && nowIn then startSession L u nowMs
  else if wasIn && !nowIn then (endSession L u nowMs).1
  else if wasIn && nowIn && (oldCh != newCh) then
    startSession (endSession L u nowMs).1 u nowMs
  else L

/-- The join, move, leave scenario: P joins channel A at t=0, moves to
channel B at t=10000, leaves at t=20000. -/
def moveScenario : Ledger :=
  handleVoice
    (handleVoice (handleVoice Ledger.empty "P" none (some "A") 0)
      "P" (some "A") (some "B") 10000)
    "P" (some "B") none 20000

/-! ## The connection supervisor (`connectToVC` and its handlers) -/

/-- `VoiceConnectionStatus` values that matter to the supervisor. -/
inductive VStatus where
  | signalling | connecting | ready | disconnected | destroyed
  deriving DecidableEq, Repr

/-- A voice connection handle: an identity plus its current status. -/
structure Conn where
  id : Nat
  status : VStatus
  deriving DecidableEq, Repr

/-- The runtime's timer table: the pending `setTimeout` entries as
(handle, delay-ms) pairs, plus a fresh-handle counter. -/
structure TimerSys where
  pending : List (Nat × Nat)
  nextHandle : Nat
  deriving DecidableEq, Repr

/-- `setTimeout(connectToVC, delay)`: register a pending timer, returning its
handle. -/
def setTimeoutMs (ts : TimerSys) (delay : Nat) : Nat × TimerSys :=
  (ts.nextHandle, ⟨ts.pending ++ [(ts.nextHandle, delay)], ts.nextHandle + 1⟩)

/-- `clearTimeout(h)`: drop the pending timer with handle `h`;
`clearTimeout(null)` is a no-op, and so is clearing an already-fired handle. -/
def clearTimeoutMs (ts : TimerSys) : Option Nat → TimerSys
  | none => ts
  | some h => { ts with pending := ts.pending.filter (fun p => p.1 != h) }

/-- The module-level mutable state of `bot.js`: the authoritative
`connection` and `player`, the single-flight `connectLock`, the debounced
`reconnectTimer` handle, the runtime timer table, fresh-id counters, the ids
of connections on which `destroy()` was called, and the id of the connection
carrying the `stateChange` observer. -/
structure SupState where
  connection : Option Conn
  player : Option Nat
  connectLock : Bool
  reconnectTimer : Option Nat
  timers : TimerSys
  nextConnId : Nat
  nextPlayerId : Nat
  destroyedIds : List Nat
  observerOn : Option Nat
  deriving DecidableEq, Repr

/-- Process start: no connection, no player, lock free, no timer. -/
def SupState.start : SupState :=
  ⟨none, none, false, none, ⟨[], 0⟩, 0, 0, [], none⟩

/-- `clearTimeout(reconnectTimer); reconnectTimer = setTimeout(connectToVC,
delay)`: the debounced rebuild-scheduling idiom used by every scheduling
site. -/
def scheduleRebuild (s : SupState) (delay : Nat) : SupState :=
  let ts := clearTimeoutMs s.timers s.reconnectTimer
  let hts := setTimeoutMs ts delay
  { s with reconnectTimer := some hts.1, timers := hts.2 }

/-- `try { connection.destroy(); } catch {}`: record the destruction of the
current connection, if any. -/
def destroyConn (s : SupState) : SupState :=
  match s.connection with
  | none => s
  | some c => { s with destroyedIds := c.id :: s.destroyedIds }

/-- The outcomes of the awaits inside one `connectToVC` call: whether the
guild fetch resolves, whether the channel fetch resolves to a voice channel,
and whether `entersState(connection, Ready, 20_000)` succeeds in time. -/
structure ConnectEnv where
  guildOk : Bool
  channelOk : Bool
  readyInTime : Bool
  deriving DecidableEq, Repr

/-- The tail of `connectToVC` past its guards: `joinVoiceChannel` assigns a
fresh connection, a fresh player is created and subscribed, then the Ready
await either succeeds (promote, attach the sole `stateChange` observer) or
times out (destroy the half-open connection, clear it, and bail before
attaching listeners — no rebuild timer is scheduled on this path). -/
def joinAndAwait (env : ConnectEnv) (s : SupState) : SupState :=
  let cid := s.nextConnId
  let pid := s.nextPlayerId
  let s2 : SupState :=
    { s with connection := some ⟨cid, VStatus.signalling⟩, nextConnId := cid + 1,
             player := some pid, nextPlayerId := pid + 1 }
  if env.readyInTime then
    { s2 with connection := some ⟨cid, VStatus.ready⟩, observerOn := some cid }
  else
    { s2 with connection := none, destroyedIds := cid :: s2.destroyedIds }

/-- The `try` block of `connectToVC`: bail on an unresolvable guild, an
invalid channel, or an existing non-destroyed authoritative connection;
otherwise join and await Ready. -/
def connectBody (env : ConnectEnv) (s1 : SupState) : SupState :=
  if env.guildOk = false then s1
  else if env.channelOk = false then s1
  else
    match s1.connection with
    | some c => if c.status = VStatus.destroyed then joinAndAwait env s1 else s1
    | none => joinAndAwait env s1

/-- `connectToVC()`: return immediately if `connectLock` is set; otherwise
set the lock, run the body, and clear the lock in the `finally`. -/
def connectToVC (env : ConnectEnv) (s : SupState) : SupState :=
  if s.connectLock then s
  else { connectBody env { s with connectLock := true } with connectLock := false }

/-- Outcomes of the awaits inside the `stateChange` handler: whether the
5-second race back into Signalling/Connecting wins after a Disconnected, and
whether the 20-second wait for Ready succeeds from a transitional state. -/
structure HandlerEnv where
  quickReconnectOk : Bool
  reachesReady : Bool
  deriving DecidableEq, Repr

/-- The `stateChange` observer: Disconnected gets one quick-reconnect chance
and otherwise tears down and schedules a rebuild; Destroyed schedules a
rebuild; a stuck Connecting/Signalling tears down and schedules a rebuild. -/
def handleStateChange (env : HandlerEnv) (newStatus : VStatus) (s : SupState) :
    SupState :=
  match newStatus with
  | .disconnected =>
    if env.quickReconnectOk then s
    else scheduleRebuild { destroyConn s with connection := none } 5000
  | .destroyed => scheduleRebuild s 5000
  | .connecting => if env.reachesReady then s
      else scheduleRebuild { destroyConn s with connection := none } 5000
  | .signalling => if env.reachesReady then s
      else scheduleRebuild { destroyConn s with connection := none } 5000
  | .ready => s

/-- The `VoiceStateUpdate` handler, bot branch: if the bot's new channel is
not the target channel, schedule a (3-second) debounced rejoin. -/
def handleBotMoved (targetChannel : String) (newCh : Option String)
    (s : SupState) : SupState :=
  if newCh = some targetChannel then s else scheduleRebuild s 3000

/-- One external stimulus of the supervisor: a connect request, a
`stateChange` event, the bot being displaced, or a pending timer firing
(which removes it from the timer table and runs `connectToVC`). -/
inductive SupEvent where
  | connectReq (env : ConnectEnv)
  | stateChange (env : HandlerEnv) (st : VStatus)
  | botMoved (target : String) (newCh : Option String)
  | timerFire (env : ConnectEnv)
  deriving DecidableEq, Repr

/-- Dispatch one stimulus. -/
def supStep (s : SupState) : SupEvent → SupState
  | .connectReq env => connectToVC env s
  | .stateChange env st => handleStateChange env st s
  | .botMoved target newCh => handleBotMoved target newCh s
  | .timerFire env =>
    match s.timers.pending with
    | [] => s
    | _ :: rest =>
      connectToVC env { s with timers := { s.timers with pending := rest } }

/-- Run a sequence of stimuli. -/
def runSup (s : SupState) : List SupEvent → SupState
  | [] => s
  | e :: es => runSup (supStep s e) es

/-- The debounce invariant: at most one rebuild timer is pending, and any
pending timer is the one named by `reconnectTimer`. -/
abbrev rebuildInv (s : SupState) : Prop :=
  s.timers.pending.length ≤ 1 ∧
    ∀ p ∈ s.timers.pending, s.reconnectTimer = some p.1

/-! ## The leaderboard query -/

/-- Insert one row into a list ordered by `total_ms` descending. -/
def insertRowDesc (r : String × Int) : Table → Table
  | [] => [r]
  | x :: xs => if x.2 ≤ r.2 then r :: x :: xs else x :: insertRowDesc r xs

/-- `ORDER BY total_ms DESC`: sort the `user_hours` rows by duration
descending. -/
def sortByTotalDesc (t : Table) : Table := t.foldr insertRowDesc []

/-- A row sequence is ordered by duration descending. -/
def DescSorted (t : Table) : Prop := t.Pairwise (fun a b => b.2 ≤ a.2)

/-- `SELECT user_id, total_ms FROM user_hours ORDER BY total_ms DESC
LIMIT ?` (`getTopStmt`). -/
def getTop (t : Table) (limit : Nat) : Table := (sortByTotalDesc t).take limit

/-- The caller-side clamp in `renderLeaderboard`:
`Math.min(20, Math.max(1, limit))`. -/
def clampLimit (limit : Int) : Int := min 20 (max 1 limit)

/-- The rows `renderLeaderboard` draws:
`getTopStmt.all(Math.min(20, Math.max(1, limit)))`. -/
def leaderboardRows (hours : Table) (limit : Int) : Table :=
  getTop hours (clampLimit limit).toNat

/-! ## Lemmas about the ledger tables -/

@[simp]
theorem getRow_upsertSet (t : Table) (u : String) (w : Int) :
    getRow (upsertSet t u w) u = some w := by
  induction t with
  | nil => simp [upsertSet, getRow]
  | cons r rs ih =>
    by_cases h : r.1 = u
    · simp [upsertSet, getRow, h]
    · simp [upsertSet, getRow, h, ih]

@[simp]
theorem getRow_deleteRow (t : Table) (u : String) :
    getRow (deleteRow t u) u = none := by
  induction t with
  | nil => simp [deleteRow, getRow]
  | cons r rs ih =>
    by_cases h : r.1 = u
    · simp [deleteRow, h, ih]
    · simp [deleteRow, getRow, h, ih]

@[simp]
theorem getRow_upsertAdd (t : Table) (u : String) (d : Int) :
    getRow (upsertAdd t u d) u = some ((getRow t u).getD 0 + d) := by
  induction t with
  | nil => simp [upsertAdd, getRow]
  | cons r rs ih =>
    by_cases h : r.1 = u
    · simp [upsertAdd, getRow, h]
    · simp [upsertAdd, getRow, h, ih]

theorem totalOf_runEvents (u : String) :
    ∀ (evs : List LedgerEvent) (L : Ledger),
      totalOf (runEvents u L evs) u =
        totalOf L u + specTotal (getRow L.sessions u) evs := by
  intro evs
  induction evs with
  | nil => intro L; simp [runEvents, specTotal]
  | cons e es ih =>
    intro L
    cases e with
    | begin t =>
      rw [runEvents, ih]
      simp [specTotal, totalOf, startSession]
    | finish t =>
      rw [runEvents, ih]
      cases h : getRow L.sessions u with
      | none => simp [endSession, h, specTotal]
      | some st =>
        simp [endSession, h, specTotal, totalOf]
        omega

theorem mem_upsertSet (t : Table) (u : String) (w : Int) (b : String × Int)
    (h : b ∈ upsertSet t u w) : b ∈ t ∨ b = (u, w) := by
  induction t with
  | nil => simpa [upsertSet] using h
  | cons r rs ih =>
    by_cases hr : r.1 = u
    · simp only [upsertSet, if_pos hr, List.mem_cons] at h
      rcases h with rfl | h
      · exact Or.inr rfl
      · exact Or.inl (List.mem_cons_of_mem _ h)
    · simp only [upsertSet, if_neg hr, List.mem_cons] at h
      rcases h with rfl | h
      · exact Or.inl (List.mem_cons_self _ _)
      · rcases ih h with h1 | h1
        · exact Or.inl (List.mem_cons_of_mem _ h1)
        · exact Or.inr h1

theorem nodupKeys_upsertSet (t : Table) (u : String) (w : Int)
    (h : nodupKeys t) : nodupKeys (upsertSet t u w) := by
  induction t with
  | nil => simp [upsertSet, nodupKeys, keys]
  | cons r rs ih =>
    rw [nodupKeys, keys, List.map_cons, List.nodup_cons] at h
    by_cases hr : r.1 = u
    · rw [nodupKeys, upsertSet, if_pos hr, keys, List.map_cons, List.nodup_cons]
      exact ⟨hr ▸ h.1, h.2⟩
    · rw [nodupKeys, upsertSet, if_neg hr, keys, List.map_cons, List.nodup_cons]
      refine ⟨?_, ih h.2⟩
      intro hmem
      rw [List.mem_map] at hmem
      obtain ⟨b, hb, hbeq⟩ := hmem
      rcases mem_upsertSet rs u w b hb with h1 | h1
      · exact h.1 (hbeq ▸ List.mem_map_of_mem Prod.fst h1)
      · exact hr (by rw [← hbeq, h1])

theorem countKey_eq_zero (t : Table) (u : String)
    (h : ∀ b ∈ t, b.1 ≠ u) : countKey t u = 0 := by
  induction t with
  | nil => rfl
  | cons r rs ih =>
    have hr : (r.1 == u) = false := by
      simpa using h r (List.mem_cons_self _ _)
    simp only [countKey, List.filter_cons, hr]
    exact ih fun b hb => h b (List.mem_cons_of_mem _ hb)

theorem countKey_upsertSet (t : Table) (u : String) (w : Int)
    (h : nodupKeys t) : countKey (upsertSet t u w) u = 1 := by
  induction t with
  | nil => simp [upsertSet, countKey]
  | cons r rs ih =>
    rw [nodupKeys, keys, List.map_cons, List.nodup_cons] at h
    by_cases hr : r.1 = u
    · have hz : countKey rs u = 0 := by
        refine countKey_eq_zero rs u fun b hb hbu => ?_
        exact h.1 (by rw [hr, ← hbu]; exact List.mem_map_of_mem Prod.fst hb)
      simp only [upsertSet, if_pos hr, countKey, List.filter_cons,
        beq_self_eq_true, List.length_cons]
      simpa [countKey] using hz
    · have hrb : (r.1 == u) = false := by simpa using hr
      simp only [upsertSet, if_neg hr, countKey, List.filter_cons, hrb]
      exact ih h.2

/-! ## Claim theorems for the session ledger -/

/-- C1: starting from an empty ledger, after any sequence of
`startSession`/`endSession` calls for one participant, the participant's
accumulated `total_ms` equals the sum over each completed session of
`max(0, end_time - start_time)`. -/
theorem total_matches_completed_sessions (u : String) (evs : List LedgerEvent) :
    totalOf (runEvents u Ledger.empty evs) u = specTotal none evs := by
  have h := totalOf_runEvents u evs Ledger.empty
  simpa [Ledger.empty, totalOf, getRow] using h

/-- C4: under the primary-key invariant, a second `startSession` with no
intervening `endSession` leaves exactly one session row for the participant,
whose `started_at` is the second call's time (last join wins), and the
primary-key invariant is preserved. -/
theorem single_active_session (L : Ledger) (u : String) (t1 t2 : Int)
    (h : nodupKeys L.sessions) :
    nodupKeys (startSession (startSession L u t1) u t2).sessions ∧
    countKey (startSession (startSession L u t1) u t2).sessions u = 1 ∧
    getRow (startSession (startSession L u t1) u t2).sessions u = some t2 :=
  ⟨nodupKeys_upsertSet _ _ _ (nodupKeys_upsertSet _ _ _ h),
   countKey_upsertSet _ _ _ (nodupKeys_upsertSet _ _ _ h),
   getRow_upsertSet _ _ _⟩

theorem single_active_session_witness :
    nodupKeys (startSession (startSession Ledger.empty "P" 3) "P" 7).sessions ∧
    countKey (startSession (startSession Ledger.empty "P" 3) "P" 7).sessions "P" = 1 ∧
    getRow (startSession (startSession Ledger.empty "P" 3) "P" 7).sessions "P" = some 7 :=
  single_active_session Ledger.empty "P" 3 7 (by decide)

/-- C5: `endSession` for a participant with no active session returns a zero
duration and leaves the ledger completely unchanged. -/
theorem endSession_without_session (L : Ledger) (u : String) (w : Int)
    (h : getRow L.sessions u = none) : endSession L u w = (L, 0) := by
  unfold endSession
  rw [h]

theorem endSession_without_session_witness :
    endSession Ledger.empty "P" 5 = (Ledger.empty, 0) :=
  endSession_without_session Ledger.empty "P" 5 rfl

/-- C7: a channel move (present before and after, in different channels) is
handled as `endSession` followed by `startSession` at the same timestamp,
and in the join-at-0, move-at-10000, leave-at-20000 scenario the
participant's total is exactly 20000 with no session left open. -/
theorem move_is_end_then_begin :
    (∀ (L : Ledger) (u c cNew : String) (w : Int), c ≠ cNew →
      handleVoice L u (some c) (some cNew) w =
        startSession (endSession L u w).1 u w) ∧
    totalOf moveScenario "P" = 20000 ∧
    getRow moveScenario.sessions "P" = none := by
  refine ⟨?_, by decide, by decide⟩
  intro L u c cNew w h
  simp [handleVoice, h]

theorem move_is_end_then_begin_witness :
    handleVoice Ledger.empty "Q" (some "A") (some "B") 5 =
      startSession (endSession Ledger.empty "Q" 5).1 "Q" 5 ∧
    totalOf moveScenario "P" = 20000 :=
  ⟨move_is_end_then_begin.1 Ledger.empty "Q" "A" "B" 5 (by decide),
   move_is_end_then_begin.2.1⟩

/-- C10: a voice-state event whose channel is unchanged (such as a mute or
deafen toggle) calls neither `startSession` nor `endSession`: the ledger is
returned untouched. -/
theorem same_channel_event_noop (L : Ledger) (u c : String) (w : Int) :
    handleVoice L u (some c) (some c) w = L := by
  simp [handleVoice]

/-! ## Lemmas about the leaderboard query -/

theorem mem_insertRowDesc (r b : String × Int) (t : Table) :
    b ∈ insertRowDesc r t ↔ b = r ∨ b ∈ t := by
  induction t with
  | nil => simp [insertRowDesc]
  | cons x xs ih =>
    by_cases h : x.2 ≤ r.2
    · simp only [insertRowDesc, if_pos h, List.mem_cons]
    · simp only [insertRowDesc, if_neg h, List.mem_cons, ih]
      tauto

theorem descSorted_insertRowDesc (r : String × Int) (t : Table)
    (h : DescSorted t) : DescSorted (insertRowDesc r t) := by
  induction t with
  | nil => simp [insertRowDesc, DescSorted]
  | cons x xs ih =>
    rw [DescSorted, List.pairwise_cons] at h
    by_cases hx : x.2 ≤ r.2
    · rw [DescSorted, insertRowDesc, if_pos hx, List.pairwise_cons]
      refine ⟨?_, List.pairwise_cons.2 h⟩
      intro b hb
      rcases List.mem_cons.1 hb with rfl | hbxs
      · exact hx
      · exact le_trans (h.1 b hbxs) hx
    · rw [DescSorted, insertRowDesc, if_neg hx, List.pairwise_cons]
      refine ⟨?_, ih h.2⟩
      intro b hb
      rcases (mem_insertRowDesc r b xs).1 hb with rfl | hbxs
      · exact le_of_lt (lt_of_not_le hx)
      · exact h.1 b hbxs

theorem descSorted_sortByTotalDesc (t : Table) :
    DescSorted (sortByTotalDesc t) := by
  induction t with
  | nil => simp [sortByTotalDesc, DescSorted]
  | cons x xs ih => exact descSorted_insertRowDesc x (sortByTotalDesc xs) ih

theorem length_insertRowDesc (r : String × Int) (t : Table) :
    (insertRowDesc r t).length = t.length + 1 := by
  induction t with
  | nil => rfl
  | cons x xs ih =>
    by_cases h : x.2 ≤ r.2 <;> simp [insertRowDesc, h, ih]

theorem length_sortByTotalDesc (t : Table) :
    (sortByTotalDesc t).length = t.length := by
  induction t with
  | nil => rfl
  | cons x xs ih =>
    show (insertRowDesc x (sortByTotalDesc xs)).length = xs.length + 1
    rw [length_insertRowDesc, ih]

/-- C8: the leaderboard rows are ordered by `total_ms` descending and
truncated to the requested limit, which the caller clamps to the range
1..20; with five participants holding 500, 400, 300, 200, 100, a limit of 3
yields exactly the top three in descending order. -/
theorem leaderboard_sorted_clamped :
    (∀ (hours : Table) (limit : Int),
      DescSorted (leaderboardRows hours limit) ∧
      (leaderboardRows hours limit).length =
        min (clampLimit limit).toNat hours.length ∧
      1 ≤ clampLimit limit ∧ clampLimit limit ≤ 20) ∧
    leaderboardRows [("c", 300), ("a", 500), ("e", 100), ("b", 400), ("d", 200)] 3 =
      [("a", 500), ("b", 400), ("c", 300)] := by
  refine ⟨fun hours limit => ⟨?_, ?_, ?_, ?_⟩, by decide⟩
  · exact List.Pairwise.sublist (List.take_sublist _ _)
      (descSorted_sortByTotalDesc hours)
  · rw [leaderboardRows, getTop, List.length_take, length_sortByTotalDesc]
  · rw [clampLimit]; omega
  · rw [clampLimit]; omega

/-! ## Lemmas about the connection supervisor -/

theorem connectBody_existing (env : ConnectEnv) (s1 : SupState) (c : Conn)
    (hc : s1.connection = some c) (hst : c.status ≠ VStatus.destroyed) :
    connectBody env s1 = s1 := by
  by_cases h1 : env.guildOk = false
  · simp [connectBody, h1]
  · by_cases h2 : env.channelOk = false
    · simp [connectBody, h1, h2]
    · simp [connectBody, h1, h2, hc, hst]

theorem joinAndAwait_frame (env : ConnectEnv) (s : SupState) :
    (joinAndAwait env s).timers = s.timers ∧
    (joinAndAwait env s).reconnectTimer = s.reconnectTimer := by
  rw [joinAndAwait]
  split <;> exact ⟨rfl, rfl⟩

theorem connectBody_frame (env : ConnectEnv) (s1 : SupState) :
    (connectBody env s1).timers = s1.timers ∧
    (connectBody env s1).reconnectTimer = s1.reconnectTimer := by
  rw [connectBody]
  split
  · exact ⟨rfl, rfl⟩
  · split
    · exact ⟨rfl, rfl⟩
    · split
      · split
        · exact joinAndAwait_frame env s1
        · exact ⟨rfl, rfl⟩
      · exact joinAndAwait_frame env s1

theorem connectToVC_frame (env : ConnectEnv) (s : SupState) :
    (connectToVC env s).timers = s.timers ∧
    (connectToVC env s).reconnectTimer = s.reconnectTimer := by
  by_cases hl : s.connectLock
  · simp [connectToVC, hl]
  · rw [connectToVC, if_neg hl]
    exact connectBody_frame env { s with connectLock := true }

theorem rebuildInv_congr (s t : SupState) (ht : s.timers = t.timers)
    (hr : s.reconnectTimer = t.reconnectTimer) (h : rebuildInv t) :
    rebuildInv s := by
  constructor
  · rw [ht]; exact h.1
  · intro p hp
    rw [hr]
    exact h.2 p (ht ▸ hp)

theorem clearTimeout_reconnect_empty (s : SupState) (h : rebuildInv s) :
    (clearTimeoutMs s.timers s.reconnectTimer).pending = [] := by
  cases hrt : s.reconnectTimer with
  | none =>
    rw [clearTimeoutMs]
    cases hp : s.timers.pending with
    | nil => rfl
    | cons p rest =>
      exfalso
      have hmem := h.2 p (by rw [hp]; exact List.mem_cons_self _ _)
      rw [hrt] at hmem
      exact Option.noConfusion hmem
  | some h0 =>
    rw [clearTimeoutMs]
    refine List.filter_eq_nil_iff.2 fun p hp => ?_
    have hmem := h.2 p hp
    rw [hrt] at hmem
    simp [Option.some_inj.1 hmem]

theorem rebuildInv_scheduleRebuild (s : SupState) (d : Nat)
    (h : rebuildInv s) : rebuildInv (scheduleRebuild s d) := by
  have hc := clearTimeout_reconnect_empty s h
  rw [scheduleRebuild]
  constructor
  · simp [setTimeoutMs, hc]
  · intro p hp
    simp only [setTimeoutMs, hc, List.nil_append, List.mem_singleton] at hp
    simp [setTimeoutMs, hp]

theorem rebuildInv_connectToVC (env : ConnectEnv) (s : SupState)
    (h : rebuildInv s) : rebuildInv (connectToVC env s) := by
  obtain ⟨ht, hr⟩ := connectToVC_frame env s
  exact rebuildInv_congr _ s ht hr h

theorem rebuildInv_handleStateChange (env : HandlerEnv) (st : VStatus)
    (s : SupState) (h : rebuildInv s) :
    rebuildInv (handleStateChange env st s) := by
  have htear : ∀ s0 : SupState, rebuildInv s0 →
      rebuildInv (scheduleRebuild { destroyConn s0 with connection := none } 5000) := by
    intro s0 h0
    apply rebuildInv_scheduleRebuild
    cases hc : s0.connection <;>
      exact rebuildInv_congr _ s0 (by simp [destroyConn, hc]) (by simp [destroyConn, hc]) h0
  cases st with
  | disconnected =>
    by_cases hq : env.quickReconnectOk = true
    · simpa [handleStateChange, hq] using h
    · rw [handleStateChange, if_neg (by simp at hq; simp [hq])]
      exact htear s h
  | destroyed => exact rebuildInv_scheduleRebuild s 5000 h
  | connecting =>
    by_cases hq : env.reachesReady = true
    · simpa [handleStateChange, hq] using h
    · rw [handleStateChange, if_neg (by simp at hq; simp [hq])]
      exact htear s h
  | signalling =>
    by_cases hq : env.reachesReady = true
    · simpa [handleStateChange, hq] using h
    · rw [handleStateChange, if_neg (by simp at hq; simp [hq])]
      exact htear s h
  | ready => simpa [handleStateChange] using h

theorem rebuildInv_supStep (s : SupState) (e : SupEvent)
    (h : rebuildInv s) : rebuildInv (supStep s e) := by
  cases e with
  | connectReq env => exact rebuildInv_connectToVC env s h
  | stateChange env st => exact rebuildInv_handleStateChange env st s h
  | botMoved tg nc =>
    rw [supStep, handleBotMoved]
    split
    · exact h
    · exact rebuildInv_scheduleRebuild s 3000 h
  | timerFire env =>
    rw [supStep]
    cases hp : s.timers.pending with
    | nil => exact h
    | cons p rest =>
      apply rebuildInv_connectToVC
      constructor
      · have h1 := h.1
        rw [hp] at h1
        simp only [List.length_cons] at h1
        show rest.length ≤ 1
        omega
      · intro q hq
        exact h.2 q (by rw [hp]; exact List.mem_cons_of_mem _ hq)

/-! ## Claim theorems for the connection supervisor -/

/-- C3: `connectToVC` is single-flight and idempotent: with the lock set it
is a complete no-op, and with an existing non-destroyed authoritative
connection it likewise returns the state unchanged, whatever the fetch and
Ready-await outcomes are. -/
theorem connect_single_flight (env : ConnectEnv) (s : SupState) :
    (s.connectLock = true → connectToVC env s = s) ∧
    (∀ c, s.connection = some c → c.status ≠ VStatus.destroyed →
      connectToVC env s = s) := by
  constructor
  · intro h
    simp [connectToVC, h]
  · intro c hc hst
    by_cases hl : s.connectLock
    · simp [connectToVC, hl]
    · have hb := connectBody_existing env { s with connectLock := true } c
        (by simpa using hc) hst
      rw [connectToVC, if_neg hl, hb]
      simp at hl
      cases s
      simp_all

theorem connect_single_flight_witness :
    connectToVC ⟨true, true, true⟩ { SupState.start with connectLock := true } =
      { SupState.start with connectLock := true } ∧
    connectToVC ⟨true, true, true⟩
        { SupState.start with connection := some ⟨0, VStatus.ready⟩ } =
      { SupState.start with connection := some ⟨0, VStatus.ready⟩ } :=
  ⟨(connect_single_flight _ _).1 rfl,
   (connect_single_flight _ _).2 ⟨0, VStatus.ready⟩ rfl (by decide)⟩

/-- C9: whenever `connectToVC` runs with the single-flight lock free, the
lock is free again after the call returns, on every exit path (guard
aborts, idempotent no-op, Ready timeout, and success alike). -/
theorem connect_releases_lock (env : ConnectEnv) (s : SupState)
    (h : s.connectLock = false) : (connectToVC env s).connectLock = false := by
  rw [connectToVC, if_neg (by simp [h])]

theorem connect_releases_lock_witness :
    (connectToVC ⟨true, true, false⟩ SupState.start).connectLock = false :=
  connect_releases_lock ⟨true, true, false⟩ SupState.start rfl

/-- C2 (counterexample): from the pristine state, with guild and channel
resolving but the Ready await timing out, `connectToVC` destroys and clears
the half-open connection — but the number of pending rebuild timers is not
one: no rebuild timer is scheduled on this path. -/
theorem ready_timeout_counterexample :
    (connectToVC ⟨true, true, false⟩ SupState.start).connection = none ∧
    (connectToVC ⟨true, true, false⟩ SupState.start).destroyedIds = [0] ∧
    ¬ (connectToVC ⟨true, true, false⟩ SupState.start).timers.pending.length = 1 := by
  decide

/-- C2 (amended): when the Ready await times out, the half-open connection
is destroyed and cleared (never left authoritative), no `stateChange`
observer is attached, and the lock is released — but no rebuild timer is
scheduled: the timer state is returned unchanged. -/
theorem ready_timeout_destroys_without_rebuild (env : ConnectEnv)
    (s : SupState) (hl : s.connectLock = false) (hg : env.guildOk = true)
    (hc : env.channelOk = true) (hcn : s.connection = none)
    (hr : env.readyInTime = false) :
    (connectToVC env s).connection = none ∧
    s.nextConnId ∈ (connectToVC env s).destroyedIds ∧
    (connectToVC env s).timers = s.timers ∧
    (connectToVC env s).reconnectTimer = s.reconnectTimer ∧
    (connectToVC env s).observerOn = s.observerOn ∧
    (connectToVC env s).connectLock = false := by
  rw [connectToVC, if_neg (by simp [hl])]
  rw [connectBody]
  simp only [hg, hc, hcn, Bool.true_eq_false, if_false]
  rw [joinAndAwait]
  simp [hr]

theorem ready_timeout_destroys_without_rebuild_witness :
    (connectToVC ⟨true, true, false⟩ SupState.start).connection = none ∧
    0 ∈ (connectToVC ⟨true, true, false⟩ SupState.start).destroyedIds ∧
    (connectToVC ⟨true, true, false⟩ SupState.start).timers = SupState.start.timers ∧
    (connectToVC ⟨true, true, false⟩ SupState.start).reconnectTimer =
      SupState.start.reconnectTimer ∧
    (connectToVC ⟨true, true, false⟩ SupState.start).observerOn =
      SupState.start.observerOn ∧
    (connectToVC ⟨true, true, false⟩ SupState.start).connectLock = false :=
  ready_timeout_destroys_without_rebuild ⟨true, true, false⟩ SupState.start
    rfl rfl rfl rfl rfl

/-- C6: every rebuild-scheduling site cancels the previously pending timer
before scheduling: under any sequence of connect requests, `stateChange`
events, bot displacements, and timer firings, at most one rebuild timer is
ever pending, and the pending one is the one named by `reconnectTimer`. -/
theorem rebuild_timer_debounced (evts : List SupEvent) (s : SupState)
    (h : rebuildInv s) : rebuildInv (runSup s evts) := by
  induction evts generalizing s with
  | nil => exact h
  | cons e es ih => exact ih (supStep s e) (rebuildInv_supStep s e h)

theorem rebuild_timer_debounced_witness :
    rebuildInv (runSup SupState.start
      [SupEvent.stateChange ⟨false, false⟩ VStatus.disconnected,
       SupEvent.stateChange ⟨false, false⟩ VStatus.destroyed,
       SupEvent.botMoved "T" none]) :=
  rebuild_timer_debounced _ SupState.start (by decide)

end VoiceBot
